import Mathlib

/-
Verification of the oncall-swaps negotiation core.

The embedding mirrors the Python sources:
  - oncall_swap/domain/models.py        (TimeWindow, Participant, WindowNeed,
                                         RingSwapCommitment, DirectSwap, SwapOffer)
  - oncall_swap/application/services.py (SwapNegotiationService.accept_cover,
                                         get_upcoming_windows, apply overrides)
  - oncall_swap/adapters/opsgenie       (schedule reader filtering)

Datetimes are modelled in minutes: the field wall is the clock value in the
timezone of the datetime, and offset is the UTC offset in minutes, with none
standing for a naive datetime.  Comparison of datetimes is by UTC instant, and
a naive datetime is normalized by treating its wall clock as UTC, matching the
normalization in models.py (replace tzinfo utc / astimezone utc) and time.py.
The date of a datetime is its wall-clock day index (floor division by 1440),
matching the Python date() accessor.
-/

namespace OncallSwap

/-- Point in time, in minutes; offset none models a naive datetime. -/
structure DateTime where
  wall : Int
  offset : Option Int
  deriving DecidableEq, Repr

/-- UTC instant of a datetime; a naive datetime is read as UTC. -/
def DateTime.utcVal (d : DateTime) : Int := d.wall - d.offset.getD 0

/-- Calendar day of a datetime, as in the Python date() accessor (wall clock). -/
def DateTime.dateOf (d : DateTime) : Int := Int.fdiv d.wall 1440

/-- Equality test of datetimes as Python compares them: instants must agree and
both must be naive or both aware. -/
def DateTime.eqb (a b : DateTime) : Bool :=
  (a.offset.isSome == b.offset.isSome) && (a.utcVal == b.utcVal)

/-- Maximum of two datetimes by instant, first argument wins ties (Python max). -/
def DateTime.maxD (a b : DateTime) : DateTime := if a.utcVal < b.utcVal then b else a

/-- Minimum of two datetimes by instant, first argument wins ties (Python min). -/
def DateTime.minD (a b : DateTime) : DateTime := if b.utcVal < a.utcVal then b else a

/-- Closed-open time interval, models.py TimeWindow. -/
structure TimeWindow where
  start : DateTime
  end_ : DateTime
  deriving DecidableEq, Repr

/-- Exact interval equality, as the Python tuple comparison to_tuple == to_tuple. -/
def TimeWindow.eqb (a b : TimeWindow) : Bool := a.start.eqb b.start && a.end_.eqb b.end_

/-- Error kinds of the core, per the taxonomy realized by the exceptions in the code. -/
inductive SwapError where
  | invalidWindow
  | timeWindowInPast
  | offerNotFound
  | offerNotActive
  | missingNeedWindow
  | noMatchingNeed
  deriving DecidableEq, Repr

/-- Validated construction of a TimeWindow: the pydantic validator
validate_non_empty rejects end less than or equal to start. -/
def TimeWindow.make (start end_ : DateTime) : Except SwapError TimeWindow :=
  if end_.utcVal ≤ start.utcVal then .error .invalidWindow else .ok ⟨start, end_⟩

/-- Duration of a window (models.py duration). -/
def TimeWindow.duration (w : TimeWindow) : Int := w.end_.utcVal - w.start.utcVal

/-- Strict overlap test (models.py overlaps). -/
def TimeWindow.overlaps (a b : TimeWindow) : Bool :=
  decide (a.start.utcVal < b.end_.utcVal) && decide (b.start.utcVal < a.end_.utcVal)

/-- Half-open membership test of an instant (models.py contains). -/
def TimeWindow.contains (w : TimeWindow) (m : DateTime) : Bool :=
  decide (w.start.utcVal ≤ m.utcVal) && decide (m.utcVal < w.end_.utcVal)

/-- Intersection of two windows (models.py intersection). -/
def TimeWindow.intersection (a b : TimeWindow) : Option TimeWindow :=
  if a.overlaps b then some ⟨a.start.maxD b.start, a.end_.minD b.end_⟩ else none

/-- Semantic membership of an instant in the half-open interval of a window. -/
def TimeWindow.memI (w : TimeWindow) (t : Int) : Prop :=
  w.start.utcVal ≤ t ∧ t < w.end_.utcVal

instance (w : TimeWindow) (t : Int) : Decidable (w.memI t) := by
  unfold TimeWindow.memI; infer_instance

/-- Participant record (models.py Participant), with the fields the core uses. -/
structure Participant where
  id : Nat
  email : String
  deriving DecidableEq, Repr

/-- Offer lifecycle status (models.py OfferStatus). -/
inductive OfferStatus where
  | active
  | fulfilled
  | cancelled
  deriving DecidableEq, Repr

/-- A finalized two-party trade (models.py DirectSwap). -/
structure DirectSwap where
  participant : Participant
  coversWindow : TimeWindow
  inExchangeFor : TimeWindow
  deriving DecidableEq, Repr

/-- A window that still requires coverage (models.py WindowNeed). -/
structure WindowNeed where
  owner : Participant
  window : TimeWindow
  createdByOffer : Bool
  deriving DecidableEq, Repr

/-- A single leg of a ring swap (models.py RingSwapCommitment). -/
structure RingSwapCommitment where
  fromParticipant : Participant
  toParticipant : Participant
  window : TimeWindow
  deriving DecidableEq, Repr

/-- Aggregate root of a negotiation (models.py SwapOffer), with the fields the
negotiation engine reads or writes. -/
structure SwapOffer where
  id : Nat
  requester : Participant
  scheduleId : String
  letWindow : TimeWindow
  searchWindows : List TimeWindow
  status : OfferStatus
  availableWindows : List TimeWindow
  directAgreements : List DirectSwap
  outstandingNeeds : List WindowNeed
  partialCommitments : List RingSwapCommitment
  deriving DecidableEq, Repr

/-- Constructor defaulting of SwapOffer: available windows start as the search
windows and the outstanding needs start as the single let-window need of the
requester, flagged created_by_offer (models.py init). -/
def SwapOffer.init (id : Nat) (requester : Participant) (scheduleId : String)
    (letWindow : TimeWindow) (searchWindows : List TimeWindow) : SwapOffer :=
  { id := id
    requester := requester
    scheduleId := scheduleId
    letWindow := letWindow
    searchWindows := searchWindows
    status := .active
    availableWindows := searchWindows
    directAgreements := []
    outstandingNeeds := [⟨requester, letWindow, true⟩]
    partialCommitments := [] }

/-- Validated factory (models.py SwapOffer.create): every window start,
normalized to UTC, must not lie before the supplied instant, which the Instant
type has already normalized to UTC. -/
def SwapOffer.create (id : Nat) (requester : Participant) (scheduleId : String)
    (letWindow : TimeWindow) (searchWindows : List TimeWindow) (now : Int) :
    Except SwapError SwapOffer :=
  if letWindow.start.utcVal < now then .error .timeWindowInPast
  else if searchWindows.any (fun w => decide (w.start.utcVal < now)) then
    .error .timeWindowInPast
  else .ok (SwapOffer.init id requester scheduleId letWindow searchWindows)

/-- Lookup of an outstanding need by exact interval (models.py find_need). -/
def SwapOffer.findNeed (offer : SwapOffer) (w : TimeWindow) : Option WindowNeed :=
  offer.outstandingNeeds.find? (fun n => n.window.eqb w)

/-- Removal of every outstanding need with the given interval, when one exists
(models.py resolve_need). -/
def SwapOffer.resolveNeed (offer : SwapOffer) (w : TimeWindow) : SwapOffer :=
  if (offer.findNeed w).isSome then
    { offer with outstandingNeeds := offer.outstandingNeeds.filter (fun n => !(n.window.eqb w)) }
  else offer

/-- Append of a ring commitment for a need (models.py add_commitment); the need
itself is not removed here. -/
def SwapOffer.addCommitment (offer : SwapOffer) (coverer : Participant) (need : WindowNeed) :
    SwapOffer :=
  { offer with partialCommitments :=
      offer.partialCommitments ++ [⟨coverer, need.owner, need.window⟩] }

/-- Recording of a direct swap (models.py record_direct_swap): the stored
covers window is always the let window of the offer, status becomes fulfilled,
and both the outstanding needs and the partial commitments are cleared. -/
def SwapOffer.recordDirectSwap (offer : SwapOffer) (participant : Participant)
    (swapWindow : TimeWindow) : SwapOffer × DirectSwap :=
  let swap : DirectSwap := ⟨participant, offer.letWindow, swapWindow⟩
  ({ offer with
      directAgreements := offer.directAgreements ++ [swap]
      status := .fulfilled
      outstandingNeeds := []
      partialCommitments := [] }, swap)

/-- Activity test (models.py is_active). -/
def SwapOffer.isActive (offer : SwapOffer) : Bool := offer.status == .active

/-- Pairing of a participant with a window, as passed to the override port
(ports/opsgenie.py OnCallAssignment). -/
structure OnCallAssignment where
  participant : Participant
  window : TimeWindow
  deriving DecidableEq, Repr

/-- Outbound notification emitted by the service (ports/slack.py); only the
payload the engine supplies is modelled. -/
inductive Notification where
  | directSwapCompleted (participant : Participant) (window : TimeWindow)
      (allAssignments : Option (List OnCallAssignment))
  | ringUpdated
  deriving DecidableEq, Repr

/-- Observable outcome of one accept_cover call: the returned value or raised
error kind, the persisted offer state, the override assignments applied, and
the notifications emitted. -/
structure AcceptResult where
  ret : Except SwapError (Option DirectSwap)
  offer : SwapOffer
  overrides : List OnCallAssignment
  notifications : List Notification
  deriving Repr

/-- Result of an accept_cover call that raises before mutating anything. -/
def errResult (offer : SwapOffer) (e : SwapError) : AcceptResult :=
  { ret := .error e, offer := offer, overrides := [], notifications := [] }

/-- Date-level overlap of a window with the let window of the offer, the test
accept_cover performs with the date accessors (services.py lines 96 to 99 and
the matching commitment scans). -/
def dateOverlapsLet (offer : SwapOffer) (w : TimeWindow) : Bool :=
  decide (w.start.dateOf ≤ offer.letWindow.end_.dateOf) &&
    decide (offer.letWindow.start.dateOf ≤ w.end_.dateOf)

/-- Direct-swap classification of accept_cover (services.py lines 85 to 86):
the start date of the first needs window is a member of the set of start dates
of the search windows. -/
def isDirectB (offer : SwapOffer) (needsWindow : TimeWindow) : Bool :=
  offer.searchWindows.any (fun w => w.start.dateOf == needsWindow.start.dateOf)

/-- One step of the pre-emption chain walk (services.py lines 126 to 143): from
the participant with identifier x, the identifiers of the owners of partial
commitments whose window date-overlaps a need owned by x that was not created
by the offer. -/
def cleanTargets (offer : SwapOffer) (x : Nat) : List Nat :=
  (offer.outstandingNeeds.filter (fun n => n.owner.id == x && !n.createdByOffer)).flatMap
    (fun n =>
      (offer.partialCommitments.filter (fun c =>
          decide (c.window.start.dateOf ≤ n.window.end_.dateOf) &&
            decide (n.window.start.dateOf ≤ c.window.end_.dateOf))).map
        (fun c => c.fromParticipant.id))

/-- Worklist loop of the chain walk. The accumulator collects the discovered
participant identifiers; an identifier is enqueued exactly once, when it is
first added, so the number of iterations is bounded by one plus the number of
partial commitments; the fuel is chosen above that bound. -/
def chainWalkAux (offer : SwapOffer) : Nat → List Nat → List Nat → List Nat
  | _, acc, [] => acc
  | 0, acc, _ => acc
  | Nat.succ fuel, acc, x :: queue =>
      let step := (cleanTargets offer x).foldl
        (fun (p : List Nat × List Nat) y =>
          if p.1.contains y then p else (p.1 ++ [y], p.2 ++ [y]))
        (acc, queue)
      chainWalkAux offer fuel step.1 step.2

/-- Set of participant identifiers transitively reachable from the pre-empted
committer along the commitment and need chain (services.py lines 119 to 143). -/
def chainWalk (offer : SwapOffer) (startId : Nat) : List Nat :=
  chainWalkAux offer (offer.partialCommitments.length + 2) [startId] [startId]

/-- Override pair applied for a plain direct swap (services.py
apply direct override helper, lines 335 to 340): the accepting participant
takes the let window and the requester takes the swap window. -/
def applyDirectOverride (offer : SwapOffer) (participant : Participant)
    (swapWindow : TimeWindow) : List OnCallAssignment :=
  [⟨participant, offer.letWindow⟩, ⟨offer.requester, swapWindow⟩]

/-- Direct-swap path when the covers window date-overlaps the let window
(services.py lines 101 to 164): if a partial commitment date-overlaps the let
window, walk the chain from its owner and purge the discovered needs and
commitments, then record a plain direct swap and apply the two overrides. -/
def directLetPath (offer : SwapOffer) (participant : Participant)
    (needsWindow : TimeWindow) : AcceptResult :=
  let offer1 :=
    match offer.partialCommitments.find? (fun c => dateOverlapsLet offer c.window) with
    | none => offer
    | some lc =>
        let toClean := chainWalk offer lc.fromParticipant.id
        { offer with
            outstandingNeeds := offer.outstandingNeeds.filter
              (fun n => !(toClean.contains n.owner.id && !n.createdByOffer))
            partialCommitments := offer.partialCommitments.filter
              (fun c => !(toClean.contains c.fromParticipant.id)) }
  let res := offer1.recordDirectSwap participant needsWindow
  { ret := .ok (some res.2)
    offer := res.1
    overrides := applyDirectOverride res.1 participant res.2.inExchangeFor
    notifications := [.directSwapCompleted participant res.2.inExchangeFor none] }

/-- Final step of the ring-closing direct swap (services.py lines 264 to 271):
the overrides are the collected assignments, the offer becomes fulfilled with
its outstanding needs cleared, and the notification carries the full
assignment list; the and call returns none. -/
def finishRingClosure (offer : SwapOffer) (participant : Participant)
    (needsWindow : TimeWindow) (assignments : List OnCallAssignment) : AcceptResult :=
  { ret := .ok none
    offer := { offer with status := .fulfilled, outstandingNeeds := [] }
    overrides := assignments
    notifications := [.directSwapCompleted participant needsWindow (some assignments)] }

/-- Direct-swap path when the covers window does not date-overlap the let
window (services.py lines 166 to 271).  When no outstanding need matches the
covers window exactly, the source re-checks the covers/let date overlap, which
is false on this path, before raising; when a need matches, the ring-closing
assignment chain is built and finalized. -/
def directNeedPath (offer : SwapOffer) (participant : Participant)
    (coversWindow needsWindow : TimeWindow) : AcceptResult :=
  match offer.findNeed coversWindow with
  | none =>
      if dateOverlapsLet offer coversWindow then
        match offer.partialCommitments.find?
            (fun c => c.window.start.dateOf == offer.letWindow.start.dateOf) with
        | some lc =>
            let offer1 := { offer with
              partialCommitments := offer.partialCommitments.filter
                (fun c => !(c.window.start.dateOf == offer.letWindow.start.dateOf))
              outstandingNeeds := offer.outstandingNeeds.filter
                (fun n => !(n.owner.id == lc.fromParticipant.id && !n.createdByOffer)) }
            let res := offer1.recordDirectSwap participant needsWindow
            { ret := .ok (some res.2)
              offer := res.1
              overrides := applyDirectOverride res.1 participant res.2.inExchangeFor
              notifications := [.directSwapCompleted participant res.2.inExchangeFor none] }
        | none => errResult offer .noMatchingNeed
      else errResult offer .noMatchingNeed
  | some _ =>
      let assignments0 : List OnCallAssignment := [⟨participant, coversWindow⟩]
      let chain0 : List Nat := [participant.id]
      let letCommitment :=
        match offer.partialCommitments.find?
            (fun c => dateOverlapsLet offer c.window && !(chain0.contains c.fromParticipant.id)) with
        | some c => some c
        | none => offer.partialCommitments.find? (fun c => dateOverlapsLet offer c.window)
      match letCommitment with
      | some lc =>
          if !(chain0.contains lc.fromParticipant.id) then
            let assignments1 := assignments0 ++ [⟨lc.fromParticipant, offer.letWindow⟩]
            let chain1 := chain0 ++ [lc.fromParticipant.id]
            let addRequester :=
              if !(chain1.contains offer.requester.id) then
                assignments1 ++ [⟨offer.requester, needsWindow⟩]
              else assignments1
            let assignments2 :=
              match offer.outstandingNeeds.find?
                  (fun n => n.owner.id == lc.fromParticipant.id) with
              | some n =>
                  -- both branches of the source conditional at lines 244 to 256
                  -- append the requester in the same way
                  if n.window.eqb coversWindow then addRequester else addRequester
              | none => addRequester
            finishRingClosure offer participant needsWindow assignments2
          else
            let assignments2 :=
              if !(chain0.contains offer.requester.id) then
                assignments0 ++ [⟨offer.requester, needsWindow⟩]
              else assignments0
            finishRingClosure offer participant needsWindow assignments2
      | none =>
          let assignments2 :=
            if !(chain0.contains offer.requester.id) then
              assignments0 ++ [⟨offer.requester, needsWindow⟩]
            else assignments0
          finishRingClosure offer participant needsWindow assignments2

/-- Ring-contribution path, taken when the classification is false
(services.py lines 273 to 331): commit to the matching outstanding need,
resolve it, and append a need for the window the responder asks for unless a
need with the same start date already exists; when no need matches but the
covers window date-overlaps the let window and a commitment for the let window
already exists, an additional concurrent commitment is recorded instead. -/
def ringContributionPath (offer : SwapOffer) (participant : Participant)
    (coversWindow needsWindow : TimeWindow) : AcceptResult :=
  match offer.findNeed coversWindow with
  | some need =>
      let offer1 := offer.addCommitment participant need
      let offer2 := offer1.resolveNeed coversWindow
      let offer3 :=
        if !((offer2.outstandingNeeds.map (fun n => n.window.start.dateOf)).contains
              needsWindow.start.dateOf) then
          { offer2 with outstandingNeeds :=
              offer2.outstandingNeeds ++ [⟨participant, needsWindow, false⟩] }
        else offer2
      { ret := .ok none, offer := offer3, overrides := [], notifications := [.ringUpdated] }
  | none =>
      if dateOverlapsLet offer coversWindow then
        match offer.partialCommitments.find? (fun c => dateOverlapsLet offer c.window) with
        | some _ =>
            let need : WindowNeed := ⟨offer.requester, offer.letWindow, true⟩
            let offer1 := offer.addCommitment participant need
            let offer2 :=
              if !((offer1.outstandingNeeds.map (fun n => n.window.start.dateOf)).contains
                    needsWindow.start.dateOf) then
                { offer1 with outstandingNeeds :=
                    offer1.outstandingNeeds ++ [⟨participant, needsWindow, false⟩] }
              else offer1
            { ret := .ok none, offer := offer2, overrides := [], notifications := [.ringUpdated] }
        | none => errResult offer .noMatchingNeed
      else errResult offer .noMatchingNeed

/-- Acceptance handler (services.py accept_cover, lines 71 to 331), for a
loaded offer and a resolved participant.  Only the head of the needs windows
list is read; the classification picks the direct paths when the start date of
that window is among the search-window start dates, splitting further on the
date overlap of the covers window with the let window, and otherwise the
ring-contribution path runs. -/
def acceptCover (offer : SwapOffer) (participant : Participant)
    (coversWindow : TimeWindow) (needsWindows : List TimeWindow) : AcceptResult :=
  if !offer.isActive then errResult offer .offerNotActive
  else
    match needsWindows with
    | [] => errResult offer .missingNeedWindow
    | needsWindow :: _ =>
        if isDirectB offer needsWindow then
          if dateOverlapsLet offer coversWindow then
            directLetPath offer participant needsWindow
          else directNeedPath offer participant coversWindow needsWindow
        else ringContributionPath offer participant coversWindow needsWindow

/-- Schedule reader (ports/opsgenie.py list_oncall as realized by the adapters,
for example the override overlay in the mock adapter, line 64): the
assignments whose window strictly overlaps the requested half-open range. -/
def listOnCall (assignments : List OnCallAssignment) (_scheduleId : String)
    (rangeStart rangeEnd : Int) : List OnCallAssignment :=
  assignments.filter (fun a =>
    decide (rangeStart < a.window.end_.utcVal) && decide (a.window.start.utcVal < rangeEnd))

/-- Lower-cased character sequence of a string, the normalization the Python
lower() call applies before the email comparison. -/
def strLower (s : String) : List Char := s.data.map Char.toLower

/-- Read-only upcoming-windows query (services.py get_upcoming_windows, lines
356 to 374): list the schedule over the horizon and keep the windows of the
assignments whose participant email matches case-insensitively. -/
def getUpcomingWindows (assignments : List OnCallAssignment) (scheduleId : String)
    (participantEmail : String) (horizonDays : Int) (now : Int) : List TimeWindow :=
  let windowStart := now
  let windowEnd := windowStart + horizonDays * 1440
  let listed := listOnCall assignments scheduleId windowStart windowEnd
  let targetEmail := strLower participantEmail
  (listed.filter (fun a => strLower a.participant.email == targetEmail)).map
    (fun a => a.window)

deriving instance DecidableEq for Except

/-- Number of outstanding needs carrying the created_by_offer flag, the
quantity the let-window-need invariant speaks about. -/
def originalNeedCount (offer : SwapOffer) : Nat :=
  offer.outstandingNeeds.countP (fun n => n.createdByOffer)

/-! Concrete fixtures used by counterexamples and witnesses. -/

/-- Sample requester. -/
def pR : Participant := ⟨0, "p1@example.com"⟩

/-- Sample ring participant. -/
def pA : Participant := ⟨1, "p3@example.com"⟩

/-- Sample closing participant. -/
def pB : Participant := ⟨2, "p4@example.com"⟩

/-- Sample direct-swap participant. -/
def pC : Participant := ⟨3, "p2@example.com"⟩

/-- Let window: day 0, 9:00 to 21:00, naive. -/
def W0 : TimeWindow := ⟨⟨540, none⟩, ⟨1260, none⟩⟩

/-- Search window: day 3, 9:00 to 21:00, naive. -/
def W1 : TimeWindow := ⟨⟨4860, none⟩, ⟨5580, none⟩⟩

/-- Ring ask window: day 14, 9:00 to 21:00, naive. -/
def W2 : TimeWindow := ⟨⟨20700, none⟩, ⟨21420, none⟩⟩

/-- Window on the same day as W1 but with a different start hour. -/
def W1shift : TimeWindow := ⟨⟨4920, none⟩, ⟨5580, none⟩⟩

/-- Fresh offer fixture: requester pR lets W0 and searches W1. -/
def O1 : SwapOffer := SwapOffer.init 10 pR "primary" W0 [W1]

/-- Offer fixture already fulfilled. -/
def Ofulfilled : SwapOffer := { O1 with status := OfferStatus.fulfilled }

/-- Offer fixture holding the partial commitment of pA on the let window and
the derived need of pA, the state reached from O1 by the ring contribution of
pA covering W0 and asking for W2. -/
def OC3 : SwapOffer := (acceptCover O1 pA W0 [W2]).offer

/-- Participant fixture for the schedule query, with mixed-case email. -/
def pQ : Participant := ⟨5, "P9@Example.COM"⟩

/-- Window fixture straddling the instant 100000. -/
def Wpast : TimeWindow := ⟨⟨99940, none⟩, ⟨100060, none⟩⟩

/-- Schedule fixture holding one assignment that overlaps the query range but
does not lie within it. -/
def schedQ : List OnCallAssignment := [⟨pQ, Wpast⟩]

/-! Helper lemmas. -/

@[simp]
theorem dateTimeEqbSelf (d : DateTime) : d.eqb d = true := by
  simp [DateTime.eqb]

@[simp]
theorem timeWindowEqbSelf (w : TimeWindow) : w.eqb w = true := by
  simp [TimeWindow.eqb]

theorem countP_filter_le {α : Type} (l : List α) (p q : α → Bool) :
    (l.filter q).countP p ≤ l.countP p := by
  induction l with
  | nil => simp
  | cons a l ih =>
      by_cases hq : q a = true <;> by_cases hp : p a = true <;>
        simp [List.filter_cons, List.countP_cons, hq, hp] <;> omega

theorem directLetPath_spec (offer : SwapOffer) (p : Participant) (nw : TimeWindow) :
    (directLetPath offer p nw).ret = .ok (some ⟨p, offer.letWindow, nw⟩) ∧
    (directLetPath offer p nw).offer.status = .fulfilled ∧
    (directLetPath offer p nw).offer.outstandingNeeds = [] ∧
    (directLetPath offer p nw).offer.partialCommitments = [] ∧
    (directLetPath offer p nw).overrides =
      [⟨p, offer.letWindow⟩, ⟨offer.requester, nw⟩] := by
  cases h : offer.partialCommitments.find? (fun c => dateOverlapsLet offer c.window) <;>
    simp [directLetPath, h, SwapOffer.recordDirectSwap, applyDirectOverride]

theorem directNeedPath_spec (offer : SwapOffer) (p : Participant) (cw nw : TimeWindow) :
    ((directNeedPath offer p cw nw).ret = .ok (some ⟨p, offer.letWindow, nw⟩) ∧
      (directNeedPath offer p cw nw).offer.status = .fulfilled ∧
      (directNeedPath offer p cw nw).overrides =
        [⟨p, offer.letWindow⟩, ⟨offer.requester, nw⟩] ∧
      (directNeedPath offer p cw nw).offer.outstandingNeeds = []) ∨
    ((directNeedPath offer p cw nw).ret = .ok none ∧
      (directNeedPath offer p cw nw).offer.status = .fulfilled ∧
      (directNeedPath offer p cw nw).offer.outstandingNeeds = []) ∨
    directNeedPath offer p cw nw = errResult offer .noMatchingNeed := by
  cases hfn : offer.findNeed cw with
  | none =>
      by_cases hov : dateOverlapsLet offer cw = true
      · cases hlc : offer.partialCommitments.find?
            (fun c => c.window.start.dateOf == offer.letWindow.start.dateOf) with
        | none => right; right; simp [directNeedPath, hfn, hov, hlc]
        | some lc =>
            left
            simp [directNeedPath, hfn, hov, hlc, SwapOffer.recordDirectSwap,
              applyDirectOverride]
      · right; right
        simp [directNeedPath, hfn, hov]
  | some need =>
      right; left
      unfold directNeedPath
      rw [hfn]
      dsimp only
      refine ⟨?_, ?_, ?_⟩ <;> (split <;> (try split) <;> (try split) <;> rfl)

theorem ringContributionPath_spec (offer : SwapOffer) (p : Participant) (cw nw : TimeWindow) :
    ((ringContributionPath offer p cw nw).ret = .ok none ∧
      (ringContributionPath offer p cw nw).offer.status = offer.status) ∨
    ringContributionPath offer p cw nw = errResult offer .noMatchingNeed := by
  cases hfn : offer.findNeed cw with
  | some need =>
      left
      simp [ringContributionPath, hfn, SwapOffer.addCommitment, SwapOffer.resolveNeed,
        apply_ite SwapOffer.status, ite_self]
  | none =>
      by_cases hov : dateOverlapsLet offer cw = true
      · cases hlc : offer.partialCommitments.find? (fun c => dateOverlapsLet offer c.window) with
        | none => right; simp [ringContributionPath, hfn, hov, hlc]
        | some lc =>
            left
            simp [ringContributionPath, hfn, hov, hlc, SwapOffer.addCommitment,
              apply_ite SwapOffer.status, ite_self]
      · right
        simp [ringContributionPath, hfn, hov]

/-- C5: for all pairs of instants, TimeWindow construction succeeds exactly
when the end is after the start and fails with the InvalidWindow error kind
when the end is at or before the start; on valid windows, duration, overlaps,
contains and intersection all treat the window as the half-open interval from
start to end. -/
theorem c5_time_window_halfopen (s e m : DateTime) (a b : TimeWindow)
    (ha : a.start.utcVal < a.end_.utcVal) (hb : b.start.utcVal < b.end_.utcVal) :
    ((∃ w, TimeWindow.make s e = .ok w) ↔ s.utcVal < e.utcVal) ∧
    (TimeWindow.make s e = .error .invalidWindow ↔ e.utcVal ≤ s.utcVal) ∧
    (a.duration = a.end_.utcVal - a.start.utcVal) ∧
    (a.contains m = true ↔ a.memI m.utcVal) ∧
    (a.overlaps b = true ↔ ∃ t, a.memI t ∧ b.memI t) ∧
    (∀ c, a.intersection b = some c → ∀ t, (c.memI t ↔ a.memI t ∧ b.memI t)) ∧
    (a.intersection b = none → ∀ t, ¬(a.memI t ∧ b.memI t)) := by
  refine ⟨?_, ?_, rfl, ?_, ?_, ?_, ?_⟩
  · unfold TimeWindow.make
    split <;> rename_i h
    · simp
      omega
    · simp
      omega
  · unfold TimeWindow.make
    split <;> rename_i h
    · simpa using h
    · simp
      omega
  · simp [TimeWindow.contains, TimeWindow.memI]
  · unfold TimeWindow.overlaps TimeWindow.memI
    simp only [Bool.and_eq_true, decide_eq_true_eq]
    constructor
    · rintro ⟨h1, h2⟩
      rcases le_total a.start.utcVal b.start.utcVal with hle | hle
      · exact ⟨b.start.utcVal, ⟨hle, h2⟩, le_refl _, hb⟩
      · exact ⟨a.start.utcVal, ⟨le_refl _, ha⟩, hle, h1⟩
    · rintro ⟨t, ⟨h1, h2⟩, h3, h4⟩
      omega
  · intro c hc t
    unfold TimeWindow.intersection at hc
    split at hc <;> rename_i hov
    · cases hc
      unfold TimeWindow.overlaps at hov
      simp only [Bool.and_eq_true, decide_eq_true_eq] at hov
      unfold TimeWindow.memI DateTime.maxD DateTime.minD
      dsimp only
      split <;> split <;> constructor <;> (intro h; constructor) <;> omega
    · cases hc
  · intro hn t hmem
    unfold TimeWindow.intersection at hn
    split at hn <;> rename_i hov
    · cases hn
    · unfold TimeWindow.overlaps at hov
      simp only [Bool.and_eq_true, decide_eq_true_eq, not_and_or] at hov
      unfold TimeWindow.memI at hmem
      rcases hov with h | h <;> omega

/-- Witness for C5, at the interval from minute 540 to minute 1260 and the
interval from minute 600 to minute 700. -/
theorem c5_witness :
    (TimeWindow.mk ⟨540, none⟩ ⟨1260, none⟩).overlaps ⟨⟨600, none⟩, ⟨700, none⟩⟩ = true ↔
      ∃ t, (TimeWindow.mk ⟨540, none⟩ ⟨1260, none⟩).memI t ∧
        TimeWindow.memI ⟨⟨600, none⟩, ⟨700, none⟩⟩ t :=
  (c5_time_window_halfopen ⟨540, none⟩ ⟨1260, none⟩ ⟨540, none⟩
    ⟨⟨540, none⟩, ⟨1260, none⟩⟩ ⟨⟨600, none⟩, ⟨700, none⟩⟩
    (by decide) (by decide)).2.2.2.2.1

/-- C6: creation fails with TimeWindowInPast exactly when the start of the let
window or of some search window, normalized to UTC with naive inputs read as
UTC, lies strictly before the supplied instant; otherwise it succeeds and the
produced offer is active. -/
theorem c6_create_validation (oid : Nat) (req : Participant) (sid : String)
    (lw : TimeWindow) (sws : List TimeWindow) (now : Int) :
    (SwapOffer.create oid req sid lw sws now = .error .timeWindowInPast ↔
      (lw.start.utcVal < now ∨ ∃ w ∈ sws, w.start.utcVal < now)) ∧
    (∀ o, SwapOffer.create oid req sid lw sws now = .ok o → o.status = .active) ∧
    (¬(lw.start.utcVal < now ∨ ∃ w ∈ sws, w.start.utcVal < now) →
      SwapOffer.create oid req sid lw sws now = .ok (SwapOffer.init oid req sid lw sws)) := by
  unfold SwapOffer.create
  split <;> rename_i h1
  · refine ⟨by simp [h1], by simp, fun hn => absurd (Or.inl h1) hn⟩
  · split <;> rename_i h2
    · simp only [List.any_eq_true, decide_eq_true_eq] at h2
      refine ⟨by simp [h2], by simp, fun hn => absurd (Or.inr h2) hn⟩
    · simp only [List.any_eq_true, decide_eq_true_eq] at h2
      refine ⟨by simp [h1, h2], ?_, fun _ => rfl⟩
      intro o ho
      cases ho
      rfl

/-- Witness for C6, at a fresh offer whose windows start after the instant
zero. -/
theorem c6_witness :
    SwapOffer.create 1 pR "primary" W0 [W1] 0 = .ok (SwapOffer.init 1 pR "primary" W0 [W1]) :=
  (c6_create_validation 1 pR "primary" W0 [W1] 0).2.2 (by decide)

/-- C7: an accept_cover call against an offer that is fulfilled or cancelled
fails with the OfferNotActive error kind, applies no overrides, emits nothing,
and leaves the offer state completely unchanged. -/
theorem c7_not_active_rejected (offer : SwapOffer) (p : Participant)
    (cw : TimeWindow) (ns : List TimeWindow)
    (h : offer.status = .fulfilled ∨ offer.status = .cancelled) :
    acceptCover offer p cw ns =
      { ret := .error .offerNotActive, offer := offer, overrides := [], notifications := [] } := by
  rcases h with h | h <;> simp [acceptCover, SwapOffer.isActive, h, errResult]

/-- Witness for C7, at the fulfilled offer fixture. -/
theorem c7_witness :
    acceptCover Ofulfilled pC W0 [W1] =
      { ret := .error .offerNotActive, offer := Ofulfilled, overrides := [],
        notifications := [] } :=
  c7_not_active_rejected Ofulfilled pC W0 [W1] (Or.inl rfl)

/-- C9: accept_cover reads only the first needs window, so a command carrying
further needs windows behaves identically, in its return value, offer state,
overrides and notifications, to the command truncated to the first one. -/
theorem c9_needs_windows_truncated (offer : SwapOffer) (p : Participant)
    (cw w : TimeWindow) (rest : List TimeWindow) :
    acceptCover offer p cw (w :: rest) = acceptCover offer p cw [w] := rfl

theorem ringContributionPath_count_le (offer : SwapOffer) (p : Participant)
    (cw nw : TimeWindow) :
    originalNeedCount (ringContributionPath offer p cw nw).offer ≤
      originalNeedCount offer := by
  unfold originalNeedCount
  cases hfn : offer.findNeed cw with
  | some need =>
      have hfn2 : ({ offer with partialCommitments := offer.partialCommitments ++
          [⟨p, need.owner, need.window⟩] } : SwapOffer).findNeed cw = some need := hfn
      simp only [ringContributionPath, hfn, SwapOffer.addCommitment, SwapOffer.resolveNeed,
        hfn2, Option.isSome_some, if_true]
      split <;> rename_i hif
      · simp only [List.countP_append]
        have h1 := countP_filter_le offer.outstandingNeeds (fun n => n.createdByOffer)
          (fun n => !(n.window.eqb cw))
        simp only [List.countP_cons, List.countP_nil]
        simp
        omega
      · exact countP_filter_le offer.outstandingNeeds _ _
  | none =>
      by_cases hov : dateOverlapsLet offer cw = true
      · cases hlc : offer.partialCommitments.find? (fun c => dateOverlapsLet offer c.window) with
        | none => simp [ringContributionPath, hfn, hov, hlc, errResult]
        | some lc =>
            simp [ringContributionPath, hfn, hov, hlc, SwapOffer.addCommitment,
              apply_ite SwapOffer.outstandingNeeds,
              apply_ite (List.countP (fun n : WindowNeed => n.createdByOffer)),
              List.countP_append, List.countP_cons]
      · simp [ringContributionPath, hfn, hov, errResult]

theorem acceptCover_count_le (offer : SwapOffer) (p : Participant) (cw : TimeWindow)
    (ns : List TimeWindow) :
    originalNeedCount (acceptCover offer p cw ns).offer ≤ originalNeedCount offer := by
  by_cases hact : offer.isActive = true
  · cases ns with
    | nil => simp [acceptCover, hact, errResult]
    | cons nw rest =>
        by_cases hd : isDirectB offer nw = true
        · by_cases hov : dateOverlapsLet offer cw = true
          · simp only [acceptCover, hact, Bool.not_true, Bool.false_eq_true, if_false, hd,
              hov, if_true]
            unfold originalNeedCount
            rw [(directLetPath_spec offer p nw).2.2.1]
            simp
          · simp only [acceptCover, hact, Bool.not_true, Bool.false_eq_true, if_false, hd,
              hov, if_true]
            unfold originalNeedCount
            rcases directNeedPath_spec offer p cw nw with ⟨_, _, _, hn⟩ | ⟨_, _, hn⟩ | heq
            · rw [hn]; simp
            · rw [hn]; simp
            · rw [heq]; simp [errResult]
        · simp only [acceptCover, hact, Bool.not_true, Bool.false_eq_true, if_false, hd,
            Bool.false_eq_true]
          exact ringContributionPath_count_le offer p cw nw
  · simp [acceptCover, hact, errResult]

/-- C2 counterexample: from the freshly created active offer O1, which holds
exactly its let-window need with originatedFromOffer true, the ring
contribution of pA covering the let window W0 removes that need while the
offer stays active, so no created-by-offer need remains on an active offer,
refuting both the uniqueness invariant and the statement that ring acceptance
never removes the let-window need. -/
theorem c2_counterexample :
    O1.outstandingNeeds = [⟨pR, W0, true⟩] ∧
    (acceptCover O1 pA W0 [W2]).offer.status = .active ∧
    (acceptCover O1 pA W0 [W2]).offer.outstandingNeeds.filter
      (fun n => n.createdByOffer) = [] := by decide

/-- C2 amended: a freshly created offer holds exactly one outstanding need
with the created_by_offer flag, and every accept_cover call can only lower
that count, so at most one such need ever exists; the count is not preserved
while the offer is active, because a ring contribution that covers the let
window resolves the flagged need by window match while leaving the offer
active. -/
theorem c2_amended_original_need (oid : Nat) (req : Participant) (sid : String)
    (lw : TimeWindow) (sws : List TimeWindow) :
    originalNeedCount (SwapOffer.init oid req sid lw sws) = 1 ∧
    (∀ offer p cw ns, originalNeedCount offer ≤ 1 →
      originalNeedCount (acceptCover offer p cw ns).offer ≤ 1) := by
  constructor
  · simp [originalNeedCount, SwapOffer.init, List.countP_cons]
  · intro offer p cw ns h
    exact le_trans (acceptCover_count_le offer p cw ns) h

/-- Witness for C2 amended, at the ring contribution on O1. -/
theorem c2_witness :
    originalNeedCount (SwapOffer.init 10 pR "primary" W0 [W1]) = 1 ∧
    originalNeedCount (acceptCover O1 pA W0 [W2]).offer ≤ 1 :=
  ⟨(c2_amended_original_need 10 pR "primary" W0 [W1]).1,
    (c2_amended_original_need 10 pR "primary" W0 [W1]).2 O1 pA W0 [W2] (by decide)⟩

/-- C1 counterexample: on the active offer O1, participant pC covers the let
window exactly and supplies exactly one needs window, W1shift, which lies on
the same day as the search window W1 but does not match any search window by
exact interval equality; the call is nevertheless classified as a direct swap
and immediately closes the negotiation, refuting the stated only-if
direction. -/
theorem c1_counterexample :
    (acceptCover O1 pC O1.letWindow [W1shift]).ret = .ok (some ⟨pC, W0, W1shift⟩) ∧
    (acceptCover O1 pC O1.letWindow [W1shift]).offer.status = .fulfilled ∧
    (∀ s ∈ O1.searchWindows, W1shift.eqb s = false) := by decide

/-- C1 amended: a successful accept_cover call on an offer closes the
negotiation, that is, leaves the offer fulfilled, exactly when the start date
of the first supplied needs window equals the start date of some original
search window; neither exact interval equality with a search window nor any
condition on the covers window takes part in the classification, and needs
windows after the first are ignored. -/
theorem c1_amended_classification (offer : SwapOffer) (p : Participant)
    (cw nw : TimeWindow) (rest : List TimeWindow) (r : Option DirectSwap)
    (h : (acceptCover offer p cw (nw :: rest)).ret = .ok r) :
    ((acceptCover offer p cw (nw :: rest)).offer.status = .fulfilled ↔
      isDirectB offer nw = true) := by
  by_cases hact : offer.isActive = true
  · have hstat : offer.status = .active := by
      simpa [SwapOffer.isActive] using hact
    by_cases hd : isDirectB offer nw = true
    · by_cases hov : dateOverlapsLet offer cw = true
      · simp only [acceptCover, hact, Bool.not_true, Bool.false_eq_true, if_false, hd, hov,
          if_true]
        simp [(directLetPath_spec offer p nw).2.1, hd]
      · simp only [acceptCover, hact, Bool.not_true, Bool.false_eq_true, if_false, hd, hov,
          if_true] at h ⊢
        rcases directNeedPath_spec offer p cw nw with ⟨_, hs, _⟩ | ⟨_, hs, _⟩ | heq
        · simp [hs, hd]
        · simp [hs, hd]
        · rw [heq] at h
          cases h
    · simp only [acceptCover, hact, Bool.not_true, Bool.false_eq_true, if_false, hd,
        Bool.false_eq_true] at h ⊢
      rcases ringContributionPath_spec offer p cw nw with ⟨_, hs⟩ | heq
      · rw [hs, hstat]
        simp [hd]
      · rw [heq] at h
        cases h
  · simp [acceptCover, hact, errResult] at h

/-- Witness for C1 amended: the simple direct swap on O1 closes the offer and
the start date of W1 is among the search-window start dates. -/
theorem c1_witness :
    (acceptCover O1 pC W0 [W1]).offer.status = .fulfilled ↔ isDirectB O1 W1 = true :=
  c1_amended_classification O1 pC W0 W1 [] (some ⟨pC, W0, W1⟩) (by decide)

/-- C10: whenever accept_cover completes a two-party direct swap, the recorded
swap covers the let window of the offer and the two overrides assign the let
window to the accepting participant and the exchanged window to the requester;
the submitted covers window is neither stored nor applied on this path. -/
theorem c10_direct_swap_covers_let (offer : SwapOffer) (p : Participant)
    (cw : TimeWindow) (ns : List TimeWindow) (s : DirectSwap)
    (h : (acceptCover offer p cw ns).ret = .ok (some s)) :
    s.coversWindow = offer.letWindow ∧ s.participant = p ∧
    (acceptCover offer p cw ns).overrides =
      [⟨p, offer.letWindow⟩, ⟨offer.requester, s.inExchangeFor⟩] := by
  by_cases hact : offer.isActive = true
  · cases ns with
    | nil => simp [acceptCover, hact, errResult] at h
    | cons nw rest =>
        by_cases hd : isDirectB offer nw = true
        · by_cases hov : dateOverlapsLet offer cw = true
          · simp only [acceptCover, hact, Bool.not_true, Bool.false_eq_true, if_false, hd,
              hov, if_true] at h ⊢
            have hspec := directLetPath_spec offer p nw
            rw [hspec.1] at h
            cases h
            exact ⟨rfl, rfl, hspec.2.2.2.2⟩
          · simp only [acceptCover, hact, Bool.not_true, Bool.false_eq_true, if_false, hd,
              hov, if_true] at h ⊢
            rcases directNeedPath_spec offer p cw nw with ⟨hr, _, hovr, _⟩ | ⟨hr, _, _⟩ | heq
            · rw [hr] at h
              cases h
              exact ⟨rfl, rfl, hovr⟩
            · rw [hr] at h
              cases h
            · rw [heq] at h
              cases h
        · simp only [acceptCover, hact, Bool.not_true, Bool.false_eq_true, if_false, hd,
            Bool.false_eq_true] at h ⊢
          rcases ringContributionPath_spec offer p cw nw with ⟨hr, _⟩ | heq
          · rw [hr] at h
            cases h
          · rw [heq] at h
            cases h
  · simp [acceptCover, hact, errResult] at h

/-- Witness for C10, at the simple direct swap on O1: the covers window
submitted is W0 and the overrides are the let window to pC and W1 to pR. -/
theorem c10_witness :
    (⟨pC, W0, W1⟩ : DirectSwap).coversWindow = O1.letWindow ∧
    (⟨pC, W0, W1⟩ : DirectSwap).participant = pC ∧
    (acceptCover O1 pC W0 [W1]).overrides = [⟨pC, O1.letWindow⟩, ⟨O1.requester, W1⟩] :=
  c10_direct_swap_covers_let O1 pC W0 [W1] ⟨pC, W0, W1⟩ (by decide)

/-- C3: on an active offer holding a partial commitment that date-overlaps the
let window, an accept_cover call covering the let window in exchange for an
exact search-window match purges the negotiation and completes as a plain
two-party direct swap: the returned DirectSwap assigns the let window to the
accepting participant, the offer becomes fulfilled with no outstanding needs
and no partial commitments left, and exactly two overrides are applied, the
let window to the accepting participant and the needs window to the
requester. -/
theorem c3_preemption_direct_swap (offer : SwapOffer) (p : Participant) (w : TimeWindow)
    (hact : offer.status = .active)
    (hdates : offer.letWindow.start.dateOf ≤ offer.letWindow.end_.dateOf)
    (hw : w ∈ offer.searchWindows)
    (c : RingSwapCommitment) (_hc : c ∈ offer.partialCommitments)
    (_hcov : dateOverlapsLet offer c.window = true) :
    (acceptCover offer p offer.letWindow [w]).ret = .ok (some ⟨p, offer.letWindow, w⟩) ∧
    (acceptCover offer p offer.letWindow [w]).offer.status = .fulfilled ∧
    (acceptCover offer p offer.letWindow [w]).offer.outstandingNeeds = [] ∧
    (acceptCover offer p offer.letWindow [w]).offer.partialCommitments = [] ∧
    (acceptCover offer p offer.letWindow [w]).overrides =
      [⟨p, offer.letWindow⟩, ⟨offer.requester, w⟩] := by
  have hact2 : offer.isActive = true := by simp [SwapOffer.isActive, hact]
  have hd : isDirectB offer w = true := by
    simp only [isDirectB, List.any_eq_true, beq_iff_eq]
    exact ⟨w, hw, rfl⟩
  have hov : dateOverlapsLet offer offer.letWindow = true := by
    simp only [dateOverlapsLet, Bool.and_eq_true, decide_eq_true_eq]
    exact ⟨hdates, hdates⟩
  simp only [acceptCover, hact2, Bool.not_true, Bool.false_eq_true, if_false, hd, hov, if_true]
  exact directLetPath_spec offer p w

/-- Witness for C3, at the offer fixture OC3 holding the commitment of pA on
the let window, pre-empted by pC trading W1. -/
theorem c3_witness :
    (acceptCover OC3 pC OC3.letWindow [W1]).ret = .ok (some ⟨pC, OC3.letWindow, W1⟩) ∧
    (acceptCover OC3 pC OC3.letWindow [W1]).offer.status = .fulfilled ∧
    (acceptCover OC3 pC OC3.letWindow [W1]).offer.outstandingNeeds = [] ∧
    (acceptCover OC3 pC OC3.letWindow [W1]).offer.partialCommitments = [] ∧
    (acceptCover OC3 pC OC3.letWindow [W1]).overrides =
      [⟨pC, OC3.letWindow⟩, ⟨OC3.requester, W1⟩] :=
  c3_preemption_direct_swap OC3 pC W1 (by decide) (by decide) (by decide)
    ⟨pA, pR, W0⟩ (by decide) (by decide)

theorem c4_step1 (Rq A : Participant) (oid : Nat) (sid : String) (w0 w1 w2 : TimeWindow)
    (h21 : w2.start.dateOf ≠ w1.start.dateOf) :
    (acceptCover (SwapOffer.init oid Rq sid w0 [w1]) A w0 [w2]).offer =
      { SwapOffer.init oid Rq sid w0 [w1] with
          outstandingNeeds := [⟨A, w2, false⟩]
          partialCommitments := [⟨A, Rq, w0⟩] } := by
  simp [acceptCover, SwapOffer.isActive, SwapOffer.init, isDirectB, Ne.symm h21,
    ringContributionPath, SwapOffer.findNeed, SwapOffer.addCommitment,
    SwapOffer.resolveNeed]

/-- C4: three-party ring closure.  For a fresh offer letting w0 and searching
w1, after A accepts covering w0 needing w2, a window on a different day than
w1 and not date-overlapping w0, and B then accepts covering w2 needing w1,
with the requester, A and B pairwise distinct, the offer becomes fulfilled and
exactly three overrides are applied, whose set is A on w0, B on w2 and the
requester on w1; the code realizes this closure as a chained direct swap, and
the override-set equality is what this theorem pins down. -/
theorem c4_ring_closure (Rq A B : Participant) (oid : Nat) (sid : String)
    (w0 w1 w2 : TimeWindow)
    (hAB : A.id ≠ B.id) (hRA : Rq.id ≠ A.id) (hRB : Rq.id ≠ B.id)
    (h21 : w2.start.dateOf ≠ w1.start.dateOf)
    (h20 : ¬(w2.start.dateOf ≤ w0.end_.dateOf ∧ w0.start.dateOf ≤ w2.end_.dateOf))
    (h00 : w0.start.dateOf ≤ w0.end_.dateOf) :
    (acceptCover (acceptCover (SwapOffer.init oid Rq sid w0 [w1]) A w0 [w2]).offer
        B w2 [w1]).offer.status = .fulfilled ∧
    (acceptCover (acceptCover (SwapOffer.init oid Rq sid w0 [w1]) A w0 [w2]).offer
        B w2 [w1]).overrides = [⟨B, w2⟩, ⟨A, w0⟩, ⟨Rq, w1⟩] ∧
    (acceptCover (acceptCover (SwapOffer.init oid Rq sid w0 [w1]) A w0 [w2]).offer
        B w2 [w1]).overrides.length = 3 ∧
    (∀ x, x ∈ (acceptCover (acceptCover (SwapOffer.init oid Rq sid w0 [w1]) A w0 [w2]).offer
        B w2 [w1]).overrides ↔ (x = ⟨A, w0⟩ ∨ x = ⟨B, w2⟩ ∨ x = ⟨Rq, w1⟩)) := by
  simp only [c4_step1 Rq A oid sid w0 w1 w2 h21]
  have hrun : acceptCover { SwapOffer.init oid Rq sid w0 [w1] with
      outstandingNeeds := [⟨A, w2, false⟩]
      partialCommitments := [⟨A, Rq, w0⟩] } B w2 [w1] =
      finishRingClosure { SwapOffer.init oid Rq sid w0 [w1] with
        outstandingNeeds := [⟨A, w2, false⟩]
        partialCommitments := [⟨A, Rq, w0⟩] } B w1 [⟨B, w2⟩, ⟨A, w0⟩, ⟨Rq, w1⟩] := by
    by_cases h1 : w2.start.dateOf ≤ w0.end_.dateOf
    · have h2 : ¬ w0.start.dateOf ≤ w2.end_.dateOf := fun hq => h20 ⟨h1, hq⟩
      simp [acceptCover, SwapOffer.isActive, SwapOffer.init, isDirectB, directNeedPath,
        SwapOffer.findNeed, dateOverlapsLet, h00, h1, h2, hAB, Ne.symm hAB, hRA,
        Ne.symm hRA, hRB, Ne.symm hRB]
    · simp [acceptCover, SwapOffer.isActive, SwapOffer.init, isDirectB, directNeedPath,
        SwapOffer.findNeed, dateOverlapsLet, h00, h1, hAB, Ne.symm hAB, hRA,
        Ne.symm hRA, hRB, Ne.symm hRB]
  rw [hrun]
  refine ⟨rfl, rfl, rfl, ?_⟩
  intro x
  simp only [finishRingClosure, List.mem_cons, List.not_mem_nil, or_false]
  tauto

/-- Witness for C4, at the fixture participants and windows: after the ring
contribution of pA and the closing acceptance of pB, the offer is fulfilled
and the three overrides are pB on W2, pA on W0 and pR on W1. -/
theorem c4_witness :
    (acceptCover (acceptCover (SwapOffer.init 10 pR "primary" W0 [W1]) pA W0 [W2]).offer
        pB W2 [W1]).offer.status = .fulfilled ∧
    (acceptCover (acceptCover (SwapOffer.init 10 pR "primary" W0 [W1]) pA W0 [W2]).offer
        pB W2 [W1]).overrides = [⟨pB, W2⟩, ⟨pA, W0⟩, ⟨pR, W1⟩] :=
  ⟨(c4_ring_closure pR pA pB 10 "primary" W0 W1 W2 (by decide) (by decide) (by decide)
      (by decide) (by decide) (by decide)).1,
    (c4_ring_closure pR pA pB 10 "primary" W0 W1 W2 (by decide) (by decide) (by decide)
      (by decide) (by decide) (by decide)).2.1⟩

/-- C8 counterexample: the schedule holds one assignment for pQ whose window
runs from one hour before the query instant to one hour after it; the window
overlaps the queried range, so the reader returns it and get_upcoming_windows
includes it after the case-insensitive email match, although the window does
not lie within the range, since it starts before the query instant. -/
theorem c8_counterexample :
    getUpcomingWindows schedQ "primary" "p9@example.com" 1 100000 = [Wpast] ∧
    Wpast.start.utcVal < 100000 := by decide

/-- C8 amended: get_upcoming_windows returns exactly the windows of the
assignments whose participant email matches case-insensitively and whose
window overlaps the half-open horizon range; the service applies no
containment filter of its own, and the reader contract is overlap-based.  The
query reads the schedule and writes nothing, which the embedding reflects by
being a pure function of the schedule. -/
theorem c8_amended_upcoming_windows (assignments : List OnCallAssignment)
    (sid email : String) (horizonDays now : Int) (w : TimeWindow) :
    w ∈ getUpcomingWindows assignments sid email horizonDays now ↔
      ∃ a ∈ assignments, a.window = w ∧ strLower a.participant.email = strLower email ∧
        now < a.window.end_.utcVal ∧ a.window.start.utcVal < now + horizonDays * 1440 := by
  simp only [getUpcomingWindows, listOnCall, List.mem_map, List.mem_filter,
    Bool.and_eq_true, decide_eq_true_eq, beq_iff_eq]
  constructor
  · rintro ⟨a, ⟨⟨ha, h1, h2⟩, h3⟩, rfl⟩
    exact ⟨a, ha, rfl, h3, h1, h2⟩
  · rintro ⟨a, ha, rfl, h3, h1, h2⟩
    exact ⟨a, ⟨⟨ha, h1, h2⟩, h3⟩, rfl⟩

end OncallSwap
